import Mathlib

/-!
Verification of the HR backend core (companies app): data model, employee
hiring-status state machine, serializer validation and view-level read rules,
shallowly embedded from the Django source under backend/accounts and
backend/companies.  Dates are modelled as day numbers (Nat); primary keys as
Nat; model instances as Lean structures whose foreign keys embed the parent
record (Django resolves a foreign key to the parent object, and object
equality on Django models is primary-key equality on saved rows).
-/

namespace HRBackend

/-- accounts/models.py CustomUser: only the fields the companies app reads.
`role` is the CharField ("admin" | "manager" | "employee"); `is_superuser`
comes from AbstractUser. -/
structure User where
  id : Nat
  role : String
  is_superuser : Bool
deriving DecidableEq, Repr

/-- companies/models.py Company: manager is the FK target user id, name the
globally unique CharField (unique=True, models.py lines 19-21). -/
structure Company where
  id : Nat
  manager : Nat
  name : String
deriving DecidableEq, Repr

/-- companies/models.py Department: the company FK embeds the parent record. -/
structure Department where
  id : Nat
  company : Company
  name : String
deriving DecidableEq, Repr

/-- companies/models.py EmployeeStatus (TextChoices). -/
inductive EmployeeStatus where
  | applicationReceived
  | interviewScheduled
  | notAccepted
  | hired
deriving DecidableEq, Repr

/-- The stored CharField value of each choice (models.py lines 84-88). -/
def EmployeeStatus.value : EmployeeStatus → String
  | .applicationReceived => "application received"
  | .interviewScheduled => "interview scheduled"
  | .notAccepted => "not accepted"
  | .hired => "hired"

/-- companies/models.py Employee.  `hired_on` is the nullable DateField,
modelled as an optional day number. -/
structure Employee where
  id : Nat
  department : Department
  name : String
  status : EmployeeStatus
  email : String
  mobile : String
  address : String
  designation : String
  hired_on : Option Nat
deriving DecidableEq, Repr

def hiredOnRequiredMsg : String := "Hired date is required when status is HIRED"

def hiredOnForbiddenMsg : String :=
  "Hired date should only be set when status is HIRED"

/-- Employee.clean (models.py lines 137-149): raises ValidationError when
status is HIRED without hired_on, or hired_on is set while status is not
HIRED. -/
def Employee.clean (e : Employee) : Except String Unit :=
  if e.status = EmployeeStatus.hired ∧ e.hired_on = none then
    Except.error hiredOnRequiredMsg
  else if e.status ≠ EmployeeStatus.hired ∧ e.hired_on ≠ none then
    Except.error hiredOnForbiddenMsg
  else
    Except.ok ()

/-- Employee.save (models.py lines 151-153): runs clean, then persists the
record unchanged. -/
def Employee.save (e : Employee) : Except String Employee :=
  match e.clean with
  | Except.error m => Except.error m
  | Except.ok _ => Except.ok e

/-- Employee.company property (models.py lines 161-163): derived from the
department FK (the department is a required FK, so it is always present on a
saved row). -/
def Employee.company (e : Employee) : Company := e.department.company

/-- The valid_transitions dict of EmployeeUpdateSerializer.validate_status
(serializers.py lines 162-171); `.get(current, [])` yields [] for the two
terminal statuses, matched here by the catch-all arms. -/
def valid_transitions : EmployeeStatus → List EmployeeStatus
  | .applicationReceived => [.interviewScheduled, .notAccepted]
  | .interviewScheduled => [.hired, .notAccepted]
  | .notAccepted => []
  | .hired => []

def terminalRejectionMsg : String :=
  "Cannot update status of already hired or not accepted employees"

/-- The f-string of serializers.py line 176; the braces interpolate the stored
status values. -/
def invalidTransitionMsg (current value : EmployeeStatus) : String :=
  "Cannot transition from " ++ current.value ++ " to " ++ value.value

/-- EmployeeUpdateSerializer.validate_status (serializers.py lines 133-179)
for an existing instance record.  The membership check against the four
choices (lines 135-148) always passes here because the argument is already one
of the four statuses; a raw string outside the choices is rejected earlier by
the ChoiceField.  Order as in the source: self-transition is returned as-is,
then terminal current statuses are rejected, then the transition table is
consulted. -/
def validate_status (current value : EmployeeStatus) : Except String EmployeeStatus :=
  if value = current then
    Except.ok value
  else if current = EmployeeStatus.hired ∨ current = EmployeeStatus.notAccepted then
    Except.error terminalRejectionMsg
  else if value ∈ valid_transitions current then
    Except.ok value
  else
    Except.error (invalidTransitionMsg current value)

/-- Modelled from the spec: the section 4.1 transition table together with the
always-accepted self-transition, written from the spec wording to be compared
with validate_status. -/
def specTransitionAccepts (current requested : EmployeeStatus) : Bool :=
  (requested = current) ||
    match current, requested with
    | .applicationReceived, .interviewScheduled => true
    | .applicationReceived, .notAccepted => true
    | .interviewScheduled, .hired => true
    | .interviewScheduled, .notAccepted => true
    | _, _ => false

def exceptIsOk {α β : Type} : Except α β → Bool
  | Except.ok _ => true
  | Except.error _ => false

/-- Whether the pattern occurs at the head of the text. -/
def charsMatchAt : List Char → List Char → Bool
  | _, [] => true
  | [], _ :: _ => false
  | c :: cs, p :: ps => c = p && charsMatchAt cs ps

/-- Whether the pattern occurs anywhere in the text. -/
def charsHaveSub : List Char → List Char → Bool
  | [], pat => pat.isEmpty
  | c :: rest, pat => charsMatchAt (c :: rest) pat || charsHaveSub rest pat

/-- Whether `pat` occurs as a contiguous substring of `s`; used to state that
an error message names a status. -/
def containsSubstr (s pat : String) : Bool := charsHaveSub s.toList pat.toList

deriving instance DecidableEq for Except

/-- The message of a rejection, or "" for an accepted result. -/
def exceptErrMsg {β : Type} : Except String β → String
  | Except.error m => m
  | Except.ok _ => ""

/-- The raw body of an employee update request as the serializer sees it: a
key is `some v` when present.  `hired_on` can appear in a request body but is
not among the writable fields of EmployeeUpdateSerializer (serializers.py
lines 106-118: not in `fields`, and listed in `read_only_fields`), so
deserialization drops it. -/
structure RawUpdate where
  department : Option Department
  name : Option String
  email : Option String
  mobile : Option String
  address : Option String
  designation : Option String
  status : Option EmployeeStatus
  hired_on : Option Nat
deriving DecidableEq, Repr

/-- The validated_data dict after field validation: exactly the writable
fields of EmployeeUpdateSerializer. -/
structure ValidatedUpdate where
  department : Option Department
  name : Option String
  email : Option String
  mobile : Option String
  address : Option String
  designation : Option String
  status : Option EmployeeStatus
deriving DecidableEq, Repr

def duplicateEmailMsg : String := "Email address must be unique"

/-- EmployeeUpdateSerializer.validate_email (serializers.py lines 120-124):
unique among the other employees, then lowercased. -/
def validate_email (allEmployees : List Employee) (inst : Employee)
    (v : String) : Except String String :=
  if allEmployees.any fun o => o.email = v ∧ o.id ≠ inst.id then
    Except.error duplicateEmailMsg
  else
    Except.ok v.toLower

def crossCompanyMsg : String :=
  "Cannot transfer employee to a department in a different company"

/-- EmployeeUpdateSerializer.validate_department (serializers.py lines
126-131): Django model equality on the two company objects is primary-key
equality; with the parent record embedded it is record equality. -/
def validate_department (inst : Employee) (v : Department) :
    Except String Department :=
  if v.company ≠ inst.department.company then
    Except.error crossCompanyMsg
  else
    Except.ok v

def mobileFormatMsg : String :=
  "Mobile number must be in international format: +1234567890"

/-- Exactly lo..hi decimal digits. -/
def digitRun (lo hi : Nat) (cs : List Char) : Bool :=
  decide (lo ≤ cs.length) && decide (cs.length ≤ hi) && cs.all Char.isDigit

/-- The RegexValidator on Employee.mobile (models.py line 112), pattern
optional plus sign, optional literal 1, then 9 to 15 digits; the two
disjuncts are the two ways the optional 1 can match. -/
def matchesMobileRegex (s : String) : Bool :=
  let cs := match s.toList with
    | '+' :: rest => rest
    | cs => cs
  digitRun 9 15 cs ||
    match cs with
    | '1' :: rest => digitRun 9 15 rest
    | _ => false

/-- The (field, message) entries one field contributes to the error dict
of the serializer. -/
def errOf {α : Type} (field : String) : Except String α → List (String × String)
  | Except.error m => [(field, m)]
  | Except.ok _ => []

/-- The department entry of field validation: absent key passes through. -/
def deptFieldRes (inst : Employee) (raw : RawUpdate) :
    Except String (Option Department) :=
  match raw.department with
  | none => Except.ok none
  | some d => (validate_department inst d).map some

/-- The email entry of field validation. -/
def emailFieldRes (allEmployees : List Employee) (inst : Employee)
    (raw : RawUpdate) : Except String (Option String) :=
  match raw.email with
  | none => Except.ok none
  | some v => (validate_email allEmployees inst v).map some

/-- The mobile entry of field validation (the model-field RegexValidator runs
inside the serializer field). -/
def mobileFieldRes (raw : RawUpdate) : Except String (Option String) :=
  match raw.mobile with
  | none => Except.ok none
  | some v =>
      if matchesMobileRegex v then Except.ok (some v)
      else Except.error mobileFormatMsg

/-- The status entry of field validation. -/
def statusFieldRes (inst : Employee) (raw : RawUpdate) :
    Except String (Option EmployeeStatus) :=
  match raw.status with
  | none => Except.ok none
  | some v => (validate_status inst.status v).map some

/-- The field-validation pass of EmployeeUpdateSerializer: per-field
validators run for every present field (DRF to_internal_value collects all
field errors before serializer-level validate runs); name, address and
designation have no validator beyond deserialization. -/
def runFieldValidators (allEmployees : List Employee) (inst : Employee)
    (raw : RawUpdate) : Except (List (String × String)) ValidatedUpdate :=
  match deptFieldRes inst raw, emailFieldRes allEmployees inst raw,
      mobileFieldRes raw, statusFieldRes inst raw with
  | Except.ok d, Except.ok e, Except.ok mo, Except.ok st =>
      Except.ok
        { department := d, name := raw.name, email := e, mobile := mo,
          address := raw.address, designation := raw.designation, status := st }
  | _, _, _, _ =>
      Except.error
        (errOf "department" (deptFieldRes inst raw)
          ++ errOf "email" (emailFieldRes allEmployees inst raw)
          ++ errOf "mobile" (mobileFieldRes raw)
          ++ errOf "status" (statusFieldRes inst raw))

def noUpdatePermissionMsg : String :=
  "You do not have permission to update this employee"

/-- EmployeeUpdateSerializer.validate (serializers.py lines 181-191): the
requesting user must own the company of the department of the instance record; the
reverse relation manager.companies is the companies whose manager FK is the
user. -/
def serializerValidate (user : User) (companies : List Company)
    (inst : Employee) (vd : ValidatedUpdate) :
    Except (List (String × String)) ValidatedUpdate :=
  if companies.any fun c => c.manager = user.id ∧ c.id = inst.department.company.id then
    Except.ok vd
  else
    Except.error [("non_field_errors", noUpdatePermissionMsg)]

/-- EmployeeUpdateSerializer.update (serializers.py lines 193-198) followed by
ModelSerializer.update: when the validated status is HIRED, hired_on is
stamped to the current date; each present validated field is set on the
instance record; then Model.save runs (which calls clean). -/
def applyValidatedUpdate (inst : Employee) (vd : ValidatedUpdate)
    (today : Nat) : Except String Employee :=
  Employee.save
    { inst with
      department := vd.department.getD inst.department
      name := vd.name.getD inst.name
      email := vd.email.getD inst.email
      mobile := vd.mobile.getD inst.mobile
      address := vd.address.getD inst.address
      designation := vd.designation.getD inst.designation
      status := vd.status.getD inst.status
      hired_on :=
        if vd.status = some EmployeeStatus.hired then some today
        else inst.hired_on }

/-- How an employee update fails: a 400 validation response carrying the error
dict, a 403 from the ownership check of the view, or a Django ValidationError
escaping Model.save inside update (not a DRF APIException, hence a server
fault). -/
inductive UpdateError where
  | validation (errs : List (String × String))
  | forbidden (msg : String)
  | modelFault (msg : String)
deriving DecidableEq, Repr

/-- The whole employee-update path of EmployeeUpdateSerializer: field
validation, serializer-level validate, then update and save. -/
def processUpdate (user : User) (companies : List Company)
    (allEmployees : List Employee) (inst : Employee) (raw : RawUpdate)
    (today : Nat) : Except UpdateError Employee :=
  match runFieldValidators allEmployees inst raw with
  | Except.error errs => Except.error (UpdateError.validation errs)
  | Except.ok vd =>
    match serializerValidate user companies inst vd with
    | Except.error errs => Except.error (UpdateError.validation errs)
    | Except.ok vd =>
      match applyValidatedUpdate inst vd today with
      | Except.error m => Except.error (UpdateError.modelFault m)
      | Except.ok e => Except.ok e

def statusPermissionMsg : String :=
  "You do not have permission to update this employee\x27s status"

/-- The body the update_status action forwards to the serializer
(views.py line 112): only the status key, partial update. -/
def update_status_data (v : EmployeeStatus) : RawUpdate :=
  { department := none, name := none, email := none, mobile := none,
    address := none, designation := none, status := some v, hired_on := none }

/-- EmployeeViewSet.update_status (views.py lines 100-118): the ownership
check of the view itself, then the partial update carrying only the status.  A request
whose status value is missing or outside the four choices is rejected by the
ChoiceField, so the argument here is one of the four statuses. -/
def update_status_endpoint (user : User) (companies : List Company)
    (allEmployees : List Employee) (employee : Employee) (v : EmployeeStatus)
    (today : Nat) : Except UpdateError Employee :=
  if employee.department.company.manager ≠ user.id then
    Except.error (UpdateError.forbidden statusPermissionMsg)
  else
    processUpdate user companies allEmployees employee (update_status_data v) today

/-- The raw body of an employee create request (EmployeeCreateSerializer,
serializers.py lines 49-98).  `status` is optional in the request; `hired_on`
is not among the fields of the serializer, so a caller-supplied value is never
deserialized. -/
structure RawCreate where
  company : Company
  department : Department
  name : String
  email : String
  mobile : String
  address : String
  designation : String
  status : Option EmployeeStatus
  hired_on : Option Nat
deriving DecidableEq, Repr

/-- The observable outcome of an employee create request: a 201 with the
record, a 400 validation response, or an exception the framework does not
translate (KeyError, or a Django ValidationError raised inside Model.save),
which surfaces as a 500 server fault. -/
inductive CreateOutcome where
  | created (e : Employee)
  | validationFailure (errs : List (String × String))
  | serverFault (msg : String)
deriving DecidableEq, Repr

def keyErrorStatusMsg : String := "KeyError: status"

def drfEmployeeEmailUniqueMsg : String :=
  "employee with this email already exists."

/-- The field pass of EmployeeCreateSerializer: the UniqueValidator that
ModelSerializer generates from the model email field (unique=True, models.py
line 106) and the mobile RegexValidator; email address syntax (the framework
EmailValidator) is outside the claims and not modelled. -/
def createFieldErrs (allEmployees : List Employee) (raw : RawCreate) :
    List (String × String) :=
  (if allEmployees.any fun o => o.email = raw.email then
     [("email", drfEmployeeEmailUniqueMsg)]
   else []) ++
  (if matchesMobileRegex raw.mobile then [] else [("mobile", mobileFormatMsg)])

/-- EmployeeCreateSerializer create path.  Field pass first, then validate()
(serializers.py lines 71-93): DRF gives the status field required=False
because the model field has a default, but no serializer default, so an
omitted status is absent from attrs and the unconditional `attrs["status"]`
raises KeyError; then the company-ownership and department-membership checks
(a department belongs to the request company exactly when its company FK is
that company).  Then create() pops company and calls Employee.objects.create,
whose save() runs clean: a Django ValidationError raised there is not a DRF
APIException and surfaces as 500, a server fault. -/
def employeeCreate (user : User) (companies : List Company)
    (allEmployees : List Employee) (raw : RawCreate) (newId : Nat) :
    CreateOutcome :=
  if createFieldErrs allEmployees raw ≠ [] then
    CreateOutcome.validationFailure (createFieldErrs allEmployees raw)
  else
    match raw.status with
    | none => CreateOutcome.serverFault keyErrorStatusMsg
    | some st =>
      if ¬ companies.any fun c => c.manager = user.id ∧ c.id = raw.company.id then
        CreateOutcome.validationFailure
          [("non_field_errors", "Invalid selected company")]
      else if raw.department.company.id ≠ raw.company.id then
        CreateOutcome.validationFailure
          [("non_field_errors", "invalid selected department")]
      else
        match Employee.save
            { id := newId, department := raw.department, name := raw.name,
              status := st, email := raw.email, mobile := raw.mobile,
              address := raw.address, designation := raw.designation,
              hired_on := none } with
        | Except.ok e => CreateOutcome.created e
        | Except.error m => CreateOutcome.serverFault m

/-- CompanyViewSet.get_queryset (views.py lines 35-38): the gate is
is_superuser, not the role field. -/
def companyQueryset (user : User) (companies : List Company) : List Company :=
  if user.is_superuser then companies
  else companies.filter fun c => c.manager = user.id

/-- The persisted state the list endpoint reads: every company, department
and employee row. -/
structure DB where
  companies : List Company
  departments : List Department
  employees : List Employee
deriving Repr

/-- The statistics dict of CompanyViewSet.list (views.py lines 44-48). -/
structure Stats where
  total_companies : Nat
  total_departments : Nat
  total_employees : Nat
deriving DecidableEq, Repr

/-- The row set of the single query Django builds for
Company.objects.aggregate(Count("id"), Count("departments"),
Count("departments__employees")): company LEFT JOIN department LEFT JOIN
employee, one row per joined combination. -/
def joinRows (db : DB) :
    List (Company × Option Department × Option Employee) :=
  db.companies.flatMap fun c =>
    let ds := db.departments.filter fun d => d.company.id = c.id
    if ds.isEmpty then [(c, none, none)]
    else
      ds.flatMap fun d =>
        let es := db.employees.filter fun e => e.department.id = d.id
        if es.isEmpty then [(c, some d, none)]
        else es.map fun e => (c, some d, some e)

/-- The aggregate of views.py lines 44-48: each Count(expr) is SQL
COUNT(column) over the joined rows, counting rows whose column is non-null
(no distinct). -/
def adminStats (db : DB) : Stats :=
  { total_companies := (joinRows db).length
    total_departments := ((joinRows db).filter fun r => r.2.1.isSome).length
    total_employees := ((joinRows db).filter fun r => r.2.2.isSome).length }

/-- CompanyViewSet.list (views.py lines 40-53): a superuser response carries
the statistics dict alongside the company list; any other user gets only the
owned companies. -/
def listCompanies (user : User) (db : DB) : Option Stats × List Company :=
  if user.is_superuser then
    (some (adminStats db), companyQueryset user db.companies)
  else
    (none, companyQueryset user db.companies)

/-- A Django UniqueConstraint as declared in a model Meta. -/
structure MetaUniqueConstraint where
  fields : List String
  cname : String
deriving DecidableEq, Repr

/-- The pieces of a Department Meta block the persistence layer reads. -/
structure DepartmentMetaBlock where
  constraints : List MetaUniqueConstraint
deriving DecidableEq, Repr

/-- The first `class Meta` block of Department (models.py lines 54-65): it
declares the (company, name) UniqueConstraint. -/
def departmentMetaFirst : DepartmentMetaBlock :=
  { constraints :=
      [{ fields := ["company", "name"],
         cname := "unique_department_name_per_company" }] }

/-- The second `class Meta` block of Department (models.py lines 67-75): it
has no constraints attribute, so Django reads an empty constraint list. -/
def departmentMetaSecond : DepartmentMetaBlock := { constraints := [] }

/-- Python class-body semantics: Department binds the name Meta twice, and the
later binding shadows the earlier, so the second block is the one Django
reads. -/
def departmentMeta : DepartmentMetaBlock := departmentMetaSecond

/-- Whether two department rows agree on every field a constraint lists. -/
def departmentsAgreeOn (fields : List String) (a b : Department) : Bool :=
  fields.all fun f =>
    match f with
    | "company" => a.company.id = b.company.id
    | "name" => a.name = b.name
    | _ => false

/-- A storage-level insert of a department row under a given Meta block: the
persistence layer rejects the row only when some declared unique constraint
already has a matching row. -/
def insertDepartmentWith (meta : DepartmentMetaBlock) (table : List Department)
    (d : Department) : Except String (List Department) :=
  if meta.constraints.any fun c => table.any fun row => departmentsAgreeOn c.fields row d then
    Except.error "IntegrityError: unique_department_name_per_company"
  else
    Except.ok (table ++ [d])

/-- The insert as the shipped model performs it, under the effective Meta. -/
def insertDepartment (table : List Department) (d : Department) :
    Except String (List Department) :=
  insertDepartmentWith departmentMeta table d

/-- How a company create fails: a 400 validation response, or a raw
storage-level IntegrityError surfacing out of create(). -/
inductive CreateCompanyError where
  | validation (msg : String)
  | integrity
deriving DecidableEq, Repr

/-- The message of the UniqueValidator that ModelSerializer generates from
Company.name (unique=True and name is among the serializer fields). -/
def drfCompanyNameUniqueMsg : String := "company with this name already exists."

def perManagerUniqueMsg : String := "Company name must be unique"

/-- CompanyCreateSerializer validation: the field pass runs the generated
UniqueValidator on name against every company, then validate()
(serializers.py lines 316-322) pre-checks (manager, name). -/
def companyCreateValidate (table : List Company) (user : User) (nm : String) :
    Except CreateCompanyError Unit :=
  if table.any fun c => c.name = nm then
    Except.error (CreateCompanyError.validation drfCompanyNameUniqueMsg)
  else if table.any fun c => c.manager = user.id ∧ c.name = nm then
    Except.error (CreateCompanyError.validation perManagerUniqueMsg)
  else
    Except.ok ()

/-- The company create path: serializer validation, then the insert guarded by
the storage-level unique constraint on name (models.py unique=True). -/
def companyCreate (table : List Company) (user : User) (nm : String)
    (newId : Nat) : Except CreateCompanyError (List Company) :=
  match companyCreateValidate table user nm with
  | Except.error e => Except.error e
  | Except.ok _ =>
    if table.any fun c => c.name = nm then
      Except.error CreateCompanyError.integrity
    else
      Except.ok (table ++ [{ id := newId, manager := user.id, name := nm }])

/-! Concrete records used by closed theorems (counterexamples, code-bug
evaluations and witnesses). -/

def exManager : User := { id := 3, role := "manager", is_superuser := false }

def exSuperuser : User := { id := 9, role := "admin", is_superuser := true }

def exCompany : Company := { id := 5, manager := 3, name := "Acme" }

def exDept : Department := { id := 8, company := exCompany, name := "Eng" }

def exDeptDup : Department := { id := 9, company := exCompany, name := "Eng" }

def exOtherCompany : Company := { id := 6, manager := 4, name := "Globex" }

def exOtherDept : Department := { id := 11, company := exOtherCompany, name := "Ops" }

def exEmployee (i : Nat) (em : String) : Employee :=
  { id := i, department := exDept, name := "Bob", status := EmployeeStatus.applicationReceived,
    email := em, mobile := "+123456789", address := "Street 1", designation := "Dev",
    hired_on := none }

def exDB : DB :=
  { companies := [exCompany],
    departments := [exDept],
    employees := [exEmployee 1 "a@x.com", exEmployee 2 "b@x.com"] }

def exRawCreate : RawCreate :=
  { company := exCompany, department := exDept, name := "Bob",
    email := "bob@x.com", mobile := "+123456789", address := "Street 1",
    designation := "Dev", status := some EmployeeStatus.hired, hired_on := none }

def exUpdatedEmployee : Employee :=
  { exEmployee 1 "a@x.com" with status := EmployeeStatus.interviewScheduled }

/-! Theorems. -/

theorem save_ok_iff (e e' : Employee) :
    Employee.save e = Except.ok e' ↔
      (e' = e ∧ (e.status = EmployeeStatus.hired ↔ e.hired_on ≠ none)) := by
  by_cases hs : e.status = EmployeeStatus.hired <;>
    by_cases hh : e.hired_on = none <;>
      simp [Employee.save, Employee.clean, hs, hh, eq_comm]

theorem save_error_of_violation (e : Employee)
    (h : ¬ (e.status = EmployeeStatus.hired ↔ e.hired_on ≠ none)) :
    ∃ m, Employee.save e = Except.error m := by
  rcases hres : Employee.save e with m | e'
  · exact ⟨m, rfl⟩
  · exact absurd ((save_ok_iff e e').mp hres).2 h

theorem validate_status_ok_value (current value w : EmployeeStatus)
    (h : validate_status current value = Except.ok w) : w = value := by
  unfold validate_status at h
  split at h
  · exact (Except.ok.injEq _ _).mp h |>.symm
  · split at h
    · cases h
    · split at h
      · exact (Except.ok.injEq _ _).mp h |>.symm
      · cases h

/-- Claim C2, amended: the acceptance decision of validate_status agrees with
the section 4.1 table plus self-transitions for every pair of statuses, and a
rejection from a non-terminal current status carries a message naming both the
source and the target status; a rejection from a terminal current status
(hired or not accepted) instead carries one fixed message that does not name
the requested target. -/
theorem validate_status_matches_table (current value : EmployeeStatus) :
    (exceptIsOk (validate_status current value) = specTransitionAccepts current value)
    ∧ (exceptIsOk (validate_status current value) = false →
        current ≠ EmployeeStatus.hired → current ≠ EmployeeStatus.notAccepted →
        containsSubstr (exceptErrMsg (validate_status current value)) current.value = true
          ∧ containsSubstr (exceptErrMsg (validate_status current value)) value.value = true)
    ∧ ((current = EmployeeStatus.hired ∨ current = EmployeeStatus.notAccepted) →
        value ≠ current →
        validate_status current value = Except.error terminalRejectionMsg) := by
  cases current <;> cases value <;> decide

/-- Claim C2, counterexample to the claim as stated: the rejected pair
(hired, application received) is reported with the fixed terminal message,
which does not name the requested target state. -/
theorem terminal_rejection_not_naming_target :
    validate_status EmployeeStatus.hired EmployeeStatus.applicationReceived
        = Except.error terminalRejectionMsg
    ∧ containsSubstr terminalRejectionMsg
        (EmployeeStatus.value EmployeeStatus.applicationReceived) = false := by
  decide

theorem deptFieldRes_ok (inst : Employee) (raw : RawUpdate)
    (od : Option Department) (h : deptFieldRes inst raw = Except.ok od) :
    od = raw.department
      ∧ ∀ d, raw.department = some d → d.company = inst.department.company := by
  cases hd : raw.department with
  | none =>
      simp only [deptFieldRes, hd] at h
      cases h
      exact ⟨rfl, fun d hh => by cases hh⟩
  | some d =>
      simp only [deptFieldRes, hd, validate_department] at h
      by_cases hc : d.company ≠ inst.department.company
      · rw [if_pos hc] at h
        simp [Except.map] at h
      · rw [if_neg hc] at h
        simp only [Except.map] at h
        cases h
        exact ⟨rfl, fun d' hd' => by cases hd'; exact not_not.mp hc⟩

theorem deptFieldRes_error_of_cross (inst : Employee) (raw : RawUpdate)
    (d : Department) (hd : raw.department = some d)
    (hc : d.company ≠ inst.department.company) :
    deptFieldRes inst raw = Except.error crossCompanyMsg := by
  simp only [deptFieldRes, hd, validate_department]
  rw [if_pos hc]
  rfl

theorem statusFieldRes_ok (inst : Employee) (raw : RawUpdate)
    (os : Option EmployeeStatus) (h : statusFieldRes inst raw = Except.ok os) :
    os = raw.status := by
  cases hst : raw.status with
  | none => simp only [statusFieldRes, hst] at h; cases h; rfl
  | some v =>
      simp only [statusFieldRes, hst] at h
      cases hv : validate_status inst.status v with
      | error m => rw [hv] at h; simp [Except.map] at h
      | ok w =>
          rw [hv] at h
          simp only [Except.map] at h
          cases h
          rw [validate_status_ok_value _ _ _ hv]

theorem runFieldValidators_ok (allEmployees : List Employee) (inst : Employee)
    (raw : RawUpdate) (vd : ValidatedUpdate)
    (h : runFieldValidators allEmployees inst raw = Except.ok vd) :
    deptFieldRes inst raw = Except.ok vd.department
    ∧ statusFieldRes inst raw = Except.ok vd.status
    ∧ vd.name = raw.name ∧ vd.address = raw.address
    ∧ vd.designation = raw.designation := by
  unfold runFieldValidators at h
  split at h
  · next hd he hmo hst =>
    cases h
    exact ⟨hd, hst, rfl, rfl, rfl⟩
  · cases h

theorem runFieldValidators_dept_error (allEmployees : List Employee)
    (inst : Employee) (raw : RawUpdate) (m : String)
    (h : deptFieldRes inst raw = Except.error m) :
    ∃ rest, runFieldValidators allEmployees inst raw
        = Except.error (("department", m) :: rest) := by
  unfold runFieldValidators
  cases he : emailFieldRes allEmployees inst raw <;>
    cases hmo : mobileFieldRes raw <;>
      cases hst : statusFieldRes inst raw <;>
        rw [h] <;>
          exact ⟨_, rfl⟩

theorem serializerValidate_ok (user : User) (companies : List Company)
    (inst : Employee) (vd vd' : ValidatedUpdate)
    (h : serializerValidate user companies inst vd = Except.ok vd') :
    vd' = vd := by
  unfold serializerValidate at h
  split at h
  · cases h; rfl
  · cases h

theorem processUpdate_ok_inv (user : User) (companies : List Company)
    (allEmployees : List Employee) (inst : Employee) (raw : RawUpdate)
    (today : Nat) (e : Employee)
    (h : processUpdate user companies allEmployees inst raw today = Except.ok e) :
    ∃ vd, runFieldValidators allEmployees inst raw = Except.ok vd
      ∧ applyValidatedUpdate inst vd today = Except.ok e := by
  unfold processUpdate at h
  split at h
  · cases h
  · next vd hvd =>
    split at h
    · cases h
    · next vd' hvd' =>
      cases serializerValidate_ok _ _ _ _ _ hvd'
      split at h
      · cases h
      · next e' he' => cases h; exact ⟨vd, hvd, he'⟩

theorem applyValidatedUpdate_ok (inst : Employee) (vd : ValidatedUpdate)
    (today : Nat) (e : Employee)
    (h : applyValidatedUpdate inst vd today = Except.ok e) :
    e.status = vd.status.getD inst.status
    ∧ e.department = vd.department.getD inst.department
    ∧ e.name = vd.name.getD inst.name
    ∧ e.email = vd.email.getD inst.email
    ∧ e.mobile = vd.mobile.getD inst.mobile
    ∧ e.address = vd.address.getD inst.address
    ∧ e.designation = vd.designation.getD inst.designation
    ∧ e.hired_on = (if vd.status = some EmployeeStatus.hired then some today
        else inst.hired_on)
    ∧ (e.status = EmployeeStatus.hired ↔ e.hired_on ≠ none) := by
  unfold applyValidatedUpdate at h
  obtain ⟨he, hinv⟩ := (save_ok_iff _ e).mp h
  subst he
  exact ⟨rfl, rfl, rfl, rfl, rfl, rfl, rfl, rfl, hinv⟩

theorem employeeCreate_created_inv (user : User) (companies : List Company)
    (allEmployees : List Employee) (raw : RawCreate) (newId : Nat)
    (e : Employee)
    (h : employeeCreate user companies allEmployees raw newId
      = CreateOutcome.created e) :
    ∃ st, raw.status = some st
      ∧ Employee.save
          { id := newId, department := raw.department, name := raw.name,
            status := st, email := raw.email, mobile := raw.mobile,
            address := raw.address, designation := raw.designation,
            hired_on := none } = Except.ok e := by
  unfold employeeCreate at h
  split at h
  · cases h
  · cases hst : raw.status with
    | none => simp only [hst] at h; cases h
    | some st =>
        simp only [hst] at h
        split at h
        · cases h
        · split at h
          · cases h
          · refine ⟨st, rfl, ?_⟩
            cases hs : Employee.save
                { id := newId, department := raw.department, name := raw.name,
                  status := st, email := raw.email, mobile := raw.mobile,
                  address := raw.address, designation := raw.designation,
                  hired_on := none } with
            | ok e' => rw [hs] at h; cases h; rfl
            | error m => rw [hs] at h; cases h

/-- Claim C1: for every record that a successful Employee save persists,
hired_on is set exactly when status is HIRED; the record is persisted
unchanged (never silently corrected); a save violating either direction is a
validation error; and every record coming out of the update path
(processUpdate, which update and update_status both go through) or the create
path satisfies the invariant. -/
theorem hired_on_iff_hired (e : Employee) :
    (Employee.save e = Except.ok e ↔
      (e.status = EmployeeStatus.hired ↔ e.hired_on ≠ none))
    ∧ (∀ e', Employee.save e = Except.ok e' → e' = e)
    ∧ (¬ (e.status = EmployeeStatus.hired ↔ e.hired_on ≠ none) →
        ∃ m, Employee.save e = Except.error m)
    ∧ (∀ user companies allEmployees raw today e₂,
        processUpdate user companies allEmployees e raw today = Except.ok e₂ →
        (e₂.status = EmployeeStatus.hired ↔ e₂.hired_on ≠ none))
    ∧ (∀ user companies allEmployees raw newId e₃,
        employeeCreate user companies allEmployees raw newId
          = CreateOutcome.created e₃ →
        (e₃.status = EmployeeStatus.hired ↔ e₃.hired_on ≠ none)) := by
  refine ⟨?_, ?_, save_error_of_violation e, ?_, ?_⟩
  · constructor
    · intro h; exact ((save_ok_iff e e).mp h).2
    · intro h; exact (save_ok_iff e e).mpr ⟨rfl, h⟩
  · intro e' h; exact ((save_ok_iff e e').mp h).1
  · intro user companies allEmployees raw today e₂ h
    obtain ⟨vd, -, happ⟩ :=
      processUpdate_ok_inv user companies allEmployees e raw today e₂ h
    exact (applyValidatedUpdate_ok e vd today e₂ happ).2.2.2.2.2.2.2.2
  · intro user companies allEmployees raw newId e₃ h
    obtain ⟨st, -, hs⟩ :=
      employeeCreate_created_inv user companies allEmployees raw newId e₃ h
    obtain ⟨he, hinv⟩ := (save_ok_iff _ e₃).mp hs
    subst he
    exact hinv

/-- Claim C3: on the update path, an accepted update whose requested target is
hired stamps hired_on to the server-side current date (the caller-supplied
hired_on, which the serializer never deserializes, plays no part); an accepted
update whose requested target is not hired leaves hired_on null; and saving a
state with hired_on set while status is not hired fails with the inconsistent
hire date error. -/
theorem update_stamps_hired_on (user : User) (companies : List Company)
    (allEmployees : List Employee) (inst : Employee) (raw : RawUpdate)
    (today : Nat) :
    (∀ e, processUpdate user companies allEmployees inst raw today = Except.ok e →
        raw.status = some EmployeeStatus.hired → e.hired_on = some today)
    ∧ (∀ e s, processUpdate user companies allEmployees inst raw today = Except.ok e →
        raw.status = some s → s ≠ EmployeeStatus.hired → e.hired_on = none)
    ∧ (∀ d, processUpdate user companies allEmployees inst
          { raw with hired_on := d } today
        = processUpdate user companies allEmployees inst raw today)
    ∧ (inst.hired_on ≠ none → inst.status ≠ EmployeeStatus.hired →
        Employee.save inst = Except.error hiredOnForbiddenMsg) := by
  refine ⟨?_, ?_, ?_, ?_⟩
  · intro e hok hst
    obtain ⟨vd, hfv, happ⟩ :=
      processUpdate_ok_inv user companies allEmployees inst raw today e hok
    obtain ⟨-, hstat, -, -, -⟩ :=
      runFieldValidators_ok allEmployees inst raw vd hfv
    have hvd : vd.status = raw.status := statusFieldRes_ok inst raw _ hstat
    have h8 := (applyValidatedUpdate_ok inst vd today e happ).2.2.2.2.2.2.2.1
    rw [hvd, hst] at h8
    simpa using h8
  · intro e s hok hst hs
    obtain ⟨vd, hfv, happ⟩ :=
      processUpdate_ok_inv user companies allEmployees inst raw today e hok
    obtain ⟨-, hstat, -, -, -⟩ :=
      runFieldValidators_ok allEmployees inst raw vd hfv
    have hvd : vd.status = raw.status := statusFieldRes_ok inst raw _ hstat
    obtain ⟨h1, -, -, -, -, -, -, -, hinv⟩ :=
      applyValidatedUpdate_ok inst vd today e happ
    rw [hvd, hst] at h1
    simp only [Option.getD_some] at h1
    have : ¬ e.status = EmployeeStatus.hired := by rw [h1]; exact hs
    have := (not_iff_not.mpr hinv).mp this
    simpa using this
  · intro d
    cases raw
    rfl
  · intro h1 h2
    unfold Employee.save Employee.clean
    rw [if_neg (by simp [h2]), if_pos ⟨h2, h1⟩]

/-- Claim C8: an employee update naming a destination department in a
different company fails validation with the cross-company transfer error; an
accepted update naming a destination department implies the destination is in
the same company, the employee moves to it, and the derived company property
follows the new department. -/
theorem transfer_same_company_only (user : User) (companies : List Company)
    (allEmployees : List Employee) (inst : Employee) (raw : RawUpdate)
    (today : Nat) :
    (∀ d, raw.department = some d → d.company ≠ inst.department.company →
        ∃ errs, processUpdate user companies allEmployees inst raw today
            = Except.error (UpdateError.validation errs)
          ∧ ("department", crossCompanyMsg) ∈ errs)
    ∧ (∀ e d, processUpdate user companies allEmployees inst raw today = Except.ok e →
        raw.department = some d →
        d.company = inst.department.company ∧ e.department = d
          ∧ e.company = d.company) := by
  constructor
  · intro d hd hc
    obtain ⟨rest, hfv⟩ :=
      runFieldValidators_dept_error allEmployees inst raw crossCompanyMsg
        (deptFieldRes_error_of_cross inst raw d hd hc)
    refine ⟨("department", crossCompanyMsg) :: rest, ?_, List.mem_cons_self _ _⟩
    unfold processUpdate
    rw [hfv]
  · intro e d hok hd
    obtain ⟨vd, hfv, happ⟩ :=
      processUpdate_ok_inv user companies allEmployees inst raw today e hok
    obtain ⟨hdep, -, -, -, -⟩ :=
      runFieldValidators_ok allEmployees inst raw vd hfv
    obtain ⟨hvd, hsame⟩ := deptFieldRes_ok inst raw _ hdep
    have hcs : d.company = inst.department.company := hsame d hd
    obtain ⟨-, h2, -⟩ := applyValidatedUpdate_ok inst vd today e happ
    rw [hvd, hd] at h2
    simp only [Option.getD_some] at h2
    exact ⟨hcs, h2, by rw [Employee.company, h2]⟩

/-- Claim C10: an accepted update_status request changes only status (and
hired_on): name, email, mobile, address, designation and department are
identical before and after, because the endpoint builds a partial update
carrying only the status value. -/
theorem update_status_changes_only_status (user : User)
    (companies : List Company) (allEmployees : List Employee)
    (employee : Employee) (v : EmployeeStatus) (today : Nat) (e : Employee)
    (h : update_status_endpoint user companies allEmployees employee v today
      = Except.ok e) :
    e.name = employee.name ∧ e.email = employee.email
      ∧ e.mobile = employee.mobile ∧ e.address = employee.address
      ∧ e.designation = employee.designation
      ∧ e.department = employee.department ∧ e.status = v := by
  unfold update_status_endpoint at h
  split at h
  · cases h
  · obtain ⟨vd, hfv, happ⟩ :=
      processUpdate_ok_inv user companies allEmployees employee
        (update_status_data v) today e h
    obtain ⟨hdep, hstat, hname, haddr, hdes⟩ :=
      runFieldValidators_ok allEmployees employee (update_status_data v) vd hfv
    have hvd : vd.status = some v := statusFieldRes_ok employee _ _ hstat
    obtain ⟨hvdd, -⟩ := deptFieldRes_ok employee _ _ hdep
    have hvde : vd.email = none := by
      have h' := hfv
      unfold runFieldValidators at h'
      split at h'
      · next hd2 he2 hmo2 hst2 =>
        cases h'
        unfold emailFieldRes at he2
        cases he2
        rfl
      · cases h'
    have hvdm : vd.mobile = none := by
      have h' := hfv
      unfold runFieldValidators at h'
      split at h'
      · next hd2 he2 hmo2 hst2 =>
        cases h'
        unfold mobileFieldRes at hmo2
        cases hmo2
        rfl
      · cases h'
    obtain ⟨h1, h2, h3, h4, h5, h6, h7, -, -⟩ :=
      applyValidatedUpdate_ok employee vd today e happ
    refine ⟨?_, ?_, ?_, ?_, ?_, ?_, ?_⟩
    · rw [h3, hname]; rfl
    · rw [h4, hvde]; rfl
    · rw [h5, hvdm]; rfl
    · rw [h6, haddr]; rfl
    · rw [h7, hdes]; rfl
    · rw [h2, hvdd]; rfl
    · rw [h1, hvd]; rfl

/-- Witness for claim C10 at a concrete accepted request: moving the example
employee from application received to interview scheduled keeps every field
but status. -/
theorem update_status_changes_only_status_witness :
    exUpdatedEmployee.name = (exEmployee 1 "a@x.com").name
    ∧ exUpdatedEmployee.email = (exEmployee 1 "a@x.com").email
    ∧ exUpdatedEmployee.mobile = (exEmployee 1 "a@x.com").mobile
    ∧ exUpdatedEmployee.address = (exEmployee 1 "a@x.com").address
    ∧ exUpdatedEmployee.designation = (exEmployee 1 "a@x.com").designation
    ∧ exUpdatedEmployee.department = (exEmployee 1 "a@x.com").department
    ∧ exUpdatedEmployee.status = EmployeeStatus.interviewScheduled :=
  update_status_changes_only_status exManager [exCompany] []
    (exEmployee 1 "a@x.com") EmployeeStatus.interviewScheduled 7
    exUpdatedEmployee (by decide)

/-- Claim C7, code bug evaluation: a create request with status hired passes
serializer validation and then crashes inside Model.save with the raw
hired-date message (a server fault, not a 400 validation failure); a create
request with status omitted crashes with KeyError instead of applying the
model default; a create request with a non-hired status succeeds and the
created record has hired_on null. -/
theorem employee_create_hired_faults :
    employeeCreate exManager [exCompany] [] exRawCreate 1
        = CreateOutcome.serverFault hiredOnRequiredMsg
    ∧ employeeCreate exManager [exCompany] []
        { exRawCreate with status := none } 1
        = CreateOutcome.serverFault keyErrorStatusMsg
    ∧ employeeCreate exManager [exCompany] []
        { exRawCreate with status := some EmployeeStatus.applicationReceived } 1
        = CreateOutcome.created
            { id := 1, department := exDept, name := "Bob",
              status := EmployeeStatus.applicationReceived,
              email := "bob@x.com", mobile := "+123456789",
              address := "Street 1", designation := "Dev",
              hired_on := none } := by
  decide

/-- Claim C4, code bug evaluation: Department binds Meta twice, the effective
(second) Meta block carries no constraints, so the storage layer accepts two
departments with the same (company, name) once the serializer pre-check is
bypassed; under the shadowed first Meta block the same insert would have been
rejected by the unique constraint. -/
theorem department_unique_constraint_shadowed :
    departmentMeta = departmentMetaSecond
    ∧ departmentMeta.constraints = []
    ∧ exDeptDup.company = exDept.company ∧ exDeptDup.name = exDept.name
    ∧ exDeptDup.id ≠ exDept.id
    ∧ insertDepartment [exDept] exDeptDup = Except.ok [exDept, exDeptDup]
    ∧ insertDepartmentWith departmentMetaFirst [exDept] exDeptDup
        = Except.error "IntegrityError: unique_department_name_per_company" := by
  decide

/-- Claim C5, counterexample to the claim as stated: a user whose role field
is admin but who is not a superuser does not see all companies; the queryset
keeps only companies they manage, here none. -/
theorem role_admin_sees_own_companies_only :
    ({ id := 1, role := "admin", is_superuser := false } : User).role = "admin"
    ∧ companyQueryset { id := 1, role := "admin", is_superuser := false }
        [exCompany] = []
    ∧ ([exCompany] : List Company) ≠ [] := by
  decide

/-- Claim C5, amended: the visibility gate of the company list is
is_superuser, not the role field: a superuser sees every company, any other
user (whatever their role, including admin) sees exactly the companies whose
manager they are, and changing the role field alone never changes the
queryset. -/
theorem company_visibility_is_superuser_gate (u : User) (cs : List Company) :
    (u.is_superuser = true → companyQueryset u cs = cs)
    ∧ (∀ c, c ∈ companyQueryset u cs ↔
        c ∈ cs ∧ (u.is_superuser = true ∨ c.manager = u.id))
    ∧ (∀ r, companyQueryset { u with role := r } cs = companyQueryset u cs) := by
  refine ⟨fun h => by simp [companyQueryset, h], fun c => ?_, fun r => rfl⟩
  by_cases h : u.is_superuser <;> simp [companyQueryset, h]

/-- Claim C6, code bug evaluation: on the example state with one company, one
department and two employees, the aggregate of the admin listing reports
total_companies = 2 and total_departments = 2 (each Count counts rows of the
joined query, multiplied by the two employees), against true counts 1 and 1;
total_employees is right; and a non-superuser listing carries no statistics. -/
theorem admin_stats_overcount :
    (listCompanies exSuperuser exDB).1
        = some { total_companies := 2, total_departments := 2,
                 total_employees := 2 }
    ∧ exDB.companies.length = 1
    ∧ exDB.departments.length = 1
    ∧ exDB.employees.length = 2
    ∧ (listCompanies exManager exDB).1 = none := by
  decide

/-- Claim C9: a company create whose name collides with any existing company
(whatever its manager) fails as a validation error from the generated
UniqueValidator; the raw storage IntegrityError branch is unreachable; and a
successful create implies the name was globally fresh and exactly the new row
is appended. -/
theorem company_name_globally_unique (table : List Company) (user : User)
    (nm : String) (newId : Nat) :
    ((table.any fun c => c.name = nm) = true →
        companyCreate table user nm newId
          = Except.error (CreateCompanyError.validation drfCompanyNameUniqueMsg))
    ∧ (companyCreate table user nm newId
        ≠ Except.error CreateCompanyError.integrity)
    ∧ (∀ res, companyCreate table user nm newId = Except.ok res →
        (table.any fun c => c.name = nm) = false
          ∧ res = table ++ [{ id := newId, manager := user.id, name := nm }]) := by
  by_cases h1 : (table.any fun c => c.name = nm) = true
  · have hrun : companyCreate table user nm newId
        = Except.error (CreateCompanyError.validation drfCompanyNameUniqueMsg) := by
      simp [companyCreate, companyCreateValidate, h1]
    refine ⟨fun _ => hrun, ?_, ?_⟩
    · rw [hrun]; simp
    · intro res hres; rw [hrun] at hres; cases hres
  · have hb : (table.any fun c => c.name = nm) = false := by
      cases hx : (table.any fun c => c.name = nm) with
      | false => rfl
      | true => exact absurd hx h1
    have h2 : ¬ ∃ c ∈ table, c.manager = user.id ∧ c.name = nm := by
      rw [List.any_eq_false] at hb
      rintro ⟨c, hc, hcc⟩
      exact hb c hc (by simp [hcc.2])
    have hrun : companyCreate table user nm newId
        = Except.ok (table ++ [{ id := newId, manager := user.id, name := nm }]) := by
      simp [companyCreate, companyCreateValidate, hb, h2]
    refine ⟨fun h => absurd h h1, ?_, ?_⟩
    · rw [hrun]; simp
    · intro res hres
      rw [hrun] at hres
      cases hres
      exact ⟨hb, rfl⟩

end HRBackend
